import Mathlib

/-!
# Schema initializer of the sqlite storage (server/storage/sqlite/initializer.go)

A shallow embedding of the four functions of the file (the reconciler, the catalog
reader, the statement executor and the three table creators) over an explicit
model of the transactional handle, followed by the properties of the written
specification that they satisfy or fail.

The handle `*sql.Tx` is modelled as a record of the driver behaviour (what a query
returns, what executing a statement does to the store) together with the store
state and the trace of calls made through the handle. The behaviour is arbitrary:
the embedded code is the same for every store.
-/

namespace Sqlite

/-! ## Errors, calls and the transactional handle -/

/-- Go `error` values that are not nil, identified by their message. -/
abbrev Err := String

/-- One call made through the transactional handle, with its outcome for `Exec`. -/
inductive Call where
  | query (sql : String)
  | exec (sql : String) (err : Option Err)
  deriving DecidableEq

/-- The result set of `tx.Query`: for every row on which `rows.Next()` is true, the
outcome of `rows.Scan(&name)`, and the value of `rows.Err()` once `rows.Next()` is
false. The code never calls `rows.Err()`. -/
structure Rows where
  scans : List (Except Err String)
  err : Option Err

/-- The handle `*sql.Tx` on a store with states in `σ`. -/
structure Tx (σ : Type) where
  /-- current state of the store -/
  db : σ
  /-- driver behaviour of `tx.Query` -/
  query : σ → String → Except Err Rows
  /-- driver behaviour of `tx.Exec`: the error (if any) and the next state -/
  exec : σ → String → Option Err × σ
  /-- calls made so far, oldest first -/
  trace : List Call

variable {σ : Type}

/-- The call `tx.Query(q)`. -/
def Tx.Query (tx : Tx σ) (q : String) : Except Err Rows × Tx σ :=
  (tx.query tx.db q, { tx with trace := tx.trace ++ [Call.query q] })

/-- The call `tx.Exec(q)`. -/
def Tx.Exec (tx : Tx σ) (q : String) : Option Err × Tx σ :=
  ((tx.exec tx.db q).1,
   { tx with db := (tx.exec tx.db q).2, trace := tx.trace ++ [Call.exec q (tx.exec tx.db q).1] })

/-- The type `tableCreator func(tx *sql.Tx) error`. -/
abbrev tableCreator (σ : Type) := Tx σ → Option Err × Tx σ

/-! ## Go maps with string keys -/

/-- A Go `map[string]V`: an association list with at most one entry per key. The
position of an entry carries no meaning, see `GoMap.range`. -/
abbrev GoMap (V : Type) := List (String × V)

/-- The builtin `delete(m, k)`. -/
def GoMap.delete {V : Type} (m : GoMap V) (k : String) : GoMap V :=
  m.filter (fun e => e.1 != k)

/-- The assignment `m[k] = v`. -/
def GoMap.set {V : Type} (m : GoMap V) (k : String) (v : V) : GoMap V :=
  m.delete k ++ [(k, v)]

/-- The lookup `m[k]` with its presence flag. -/
def GoMap.get? {V : Type} (m : GoMap V) (k : String) : Option V :=
  (m.find? (fun e => e.1 == k)).map Prod.snd

/-- The builtin `len(m)`. -/
def GoMap.len {V : Type} (m : GoMap V) : Nat := m.length

/-- The permutation of `l` that the choice `seed` selects. -/
def rangeOrder {α : Type} (seed : Nat) (l : List α) : List α :=
  (l.permutations').getD (seed % (l.permutations').length) l

/-- The entries in the order in which one `for ... range m` visits them. The Go
language leaves this order unspecified; `seed` stands for the choice the runtime
makes, and selects one of the permutations of the entries. -/
def GoMap.range {V : Type} (seed : Nat) (m : GoMap V) : List (String × V) :=
  rangeOrder seed m

/-! ## fmt.Sprintf with the verb %s -/

/-- Substitution of the successive arguments for the successive `%s` verbs. -/
def sprintfChars : List Char → List String → List Char
  | '%' :: 's' :: rest, a :: args => a.data ++ sprintfChars rest args
  | c :: rest, args => c :: sprintfChars rest args
  | [], _ => []

/-- The call `fmt.Sprintf(format, args...)` for formats whose only verb is `%s`. -/
def Sprintf (format : String) (args : List String) : String :=
  ⟨sprintfChars format.data args⟩

/-! ## Table names -/

/-- Modelled from the spec: the package constant `targetTableName` is declared
outside initializer.go; the spec names the table `targets`. -/
def targetTableName : String := "targets"

/-- Modelled from the spec: the package constant `subscriberTableName` is declared
outside initializer.go; the spec names the table `subscribers`. -/
def subscriberTableName : String := "subscribers"

/-- Modelled from the spec: the package constant `targetSubscriberTableName` is
declared outside initializer.go; the spec names the table `target_subscriber`. -/
def targetSubscriberTableName : String := "target_subscriber"

/-! ## The code -/

/-- The function `execQueries`: the loop runs `tx.Exec` on each statement in turn and
breaks at the first error, which is then returned. -/
def execQueries (tx : Tx σ) : List String → Option Err × Tx σ
  | [] => (none, tx)
  | query :: rest =>
    match tx.Exec query with
    | (some err, tx1) => (some err, tx1)
    | (none, tx1) => execQueries tx1 rest

/-- The slice of statements built in `createTargetsTable`. -/
def createTargetsTableQueries : List String :=
  [ Sprintf
      ("CREATE TABLE %s(" ++
        "id INTEGER NOT NULL PRIMARY KEY," ++
        "key TEXT NOT NULL," ++
        "name TEXT NOT NULL," ++
        "kind TEXT NOT NULL," ++
        "enabled INTEGER NOT NULL" ++
        ");")
      [targetTableName],
    Sprintf "CREATE UNIQUE INDEX target_key_idx on %s(key);" [targetTableName],
    Sprintf "CREATE UNIQUE INDEX target_name_idx on %s(name);" [targetTableName] ]

/-- The function `createTargetsTable`. -/
def createTargetsTable : tableCreator σ :=
  fun tx => execQueries tx createTargetsTableQueries

/-- The slice of statements built in `createSubscribersTable`. -/
def createSubscribersTableQueries : List String :=
  [ Sprintf
      ("CREATE TABLE %s(" ++
        "id INTEGER NOT NULL PRIMARY KEY," ++
        "name TEXT NOT NULL," ++
        "event TEXT NOT NULL," ++
        "method TEXT NOT NULL," ++
        "url TEXT NOT NULL," ++
        "headers TEXT," ++
        "data TEXT" ++
        ");")
      [subscriberTableName],
    Sprintf "CREATE UNIQUE INDEX subscriber_name_idx on %s(name);" [subscriberTableName] ]

/-- The function `createSubscribersTable`. -/
def createSubscribersTable : tableCreator σ :=
  fun tx => execQueries tx createSubscribersTableQueries

/-- The slice of statements built in `createTargetSubscriberTable`. -/
def createTargetSubscriberTableQueries : List String :=
  [ Sprintf
      ("CREATE TABLE %s(" ++
        "event TEXT NOT NULL," ++
        "enabled INTEGER NOT NULL," ++
        "target_id INTEGER REFERENCES %s(id) ON DELETE CASCADE," ++
        "subscriber_id INTEGER REFERENCES %s(id) ON DELETE CASCADE" ++
        ");")
      [targetSubscriberTableName, targetTableName, subscriberTableName],
    Sprintf "CREATE INDEX target_subscriber_idx on %s(target_id, subscriber_id);"
      [targetSubscriberTableName] ]

/-- The function `createTargetSubscriberTable`. -/
def createTargetSubscriberTable : tableCreator σ :=
  fun tx => execQueries tx createTargetSubscriberTableQueries

/-- The metadata query of `getTableCreators`. -/
def catalogQuery : String := "SELECT name FROM sqlite_master WHERE type='table'"

/-- The loop `for rows.Next()` of `getTableCreators`: scan the name of each row, break
at the first scan error, otherwise delete the registry entry the name designates. -/
def scanRows : List (Except Err String) → GoMap (tableCreator σ) →
    Option Err × GoMap (tableCreator σ)
  | [], tables => (none, tables)
  | Except.error err :: _, tables => (some err, tables)
  | Except.ok name :: rest, tables =>
    scanRows rest
      (if name = targetTableName then tables.delete targetTableName
       else if name = subscriberTableName then tables.delete subscriberTableName
       else if name = targetSubscriberTableName then tables.delete targetSubscriberTableName
       else tables)

/-- The function `getTableCreators`; `Except.error err` stands for `(nil, err)` and
`Except.ok tables` for `(tables, nil)`. -/
def getTableCreators (tx : Tx σ) : Except Err (GoMap (tableCreator σ)) × Tx σ :=
  match tx.Query catalogQuery with
  | (Except.error err, tx1) => (Except.error err, tx1)
  | (Except.ok rows, tx1) =>
    let tables : GoMap (tableCreator σ) := []
    let tables := tables.set targetTableName createTargetsTable
    let tables := tables.set subscriberTableName createSubscribersTable
    let tables := tables.set targetSubscriberTableName createTargetSubscriberTable
    match scanRows rows.scans tables with
    | (some err, _) => (Except.error err, tx1)
    | (none, tables) => (Except.ok tables, tx1)

/-- The loop `for _, table := range tables` of the reconciler, over the entries in
the order of the iteration: call each creator, break at the first error. -/
def runCreators : List (String × tableCreator σ) → Tx σ → Option Err × Tx σ
  | [], tx => (none, tx)
  | (_, table) :: rest, tx =>
    match table tx with
    | (some err, tx1) => (some err, tx1)
    | (none, tx1) => runCreators rest tx1

/-- The function `initialize` of initializer.go (the name is a reserved word here);
`seed` fixes the order of the iteration over the map, see `GoMap.range`. -/
def initializeSchema (seed : Nat) (tx : Tx σ) : (Bool × Option Err) × Tx σ :=
  match getTableCreators tx with
  | (Except.error err, tx1) => ((false, some err), tx1)
  | (Except.ok tables, tx1) =>
    if tables.len = 0 then ((false, none), tx1)
    else
      match runCreators (tables.range seed) tx1 with
      | (some err, tx2) => ((false, some err), tx2)
      | (none, tx2) => ((true, none), tx2)

/-! ## A model of the store

The properties that speak of the catalog after a run need a store on which a
successful `CREATE` shows up in the catalog. The model keeps the rows of
`sqlite_master`, answers the catalog query from them, and adds one row per
successful `CREATE TABLE` or `CREATE INDEX`. A statement fails when the name it
creates is taken, when the indexed table is absent, when it is not one of the two
forms, and whenever the environment makes it fail (`fault`: lock, full disk,
cancellation). Foreign keys are not checked when a table is created, as in SQLite. -/

/-- One row of `sqlite_master`. -/
structure MasterRow where
  kind : String
  name : String
  tbl_name : String
  sql : String
  deriving DecidableEq

/-- The schema of a store: the rows of `sqlite_master`, oldest first. -/
abbrev Schema := List MasterRow

/-- A parsed structural statement. -/
inductive DDL where
  | createTable (name : String) (columns : List String)
  | createIndex (unique : Bool) (name : String) (table : String) (columns : List String)
  deriving DecidableEq

/-- The characters of `s` that follow the leading `p`, when `s` starts with `p`. -/
def after? : List Char → List Char → Option (List Char)
  | [], s => some s
  | _ :: _, [] => none
  | a :: p, b :: s => if a = b then after? p s else none

/-- The pieces of `s` between the occurrences of `sep`. -/
def splitAt (sep : Char) : List Char → List (List Char)
  | [] => [[]]
  | c :: cs =>
    if c = sep then [] :: splitAt sep cs
    else
      match splitAt sep cs with
      | [] => [[c]]
      | w :: ws => (c :: w) :: ws

/-- The comma-separated items of a body `item,item,...);`, without leading blanks. -/
def items? (body : List Char) : Option (List String) :=
  match after? [';', ')'] body.reverse with
  | none => none
  | some inner =>
    some ((splitAt ',' inner.reverse).map (fun w => String.mk (w.dropWhile (fun c => c = ' '))))

/-- The name at the head of `s` (up to a blank or an opening bracket) and what
follows it. -/
def ident (s : List Char) : String × List Char :=
  (String.mk (s.takeWhile (fun c => c != '(' && c != ' ')),
   s.dropWhile (fun c => c != '(' && c != ' '))

/-- The parse of `name on table(columns);`. -/
def parseIndex (unique : Bool) (s : List Char) : Option DDL :=
  match after? " on ".data (ident s).2 with
  | none => none
  | some s1 =>
    match after? ['('] (ident s1).2 with
    | none => none
    | some body => (items? body).map (DDL.createIndex unique (ident s).1 (ident s1).1)

/-- The parse of a statement of one of the forms `CREATE TABLE name(columns);`,
`CREATE UNIQUE INDEX name on table(columns);`, `CREATE INDEX name on table(columns);`. -/
def parseDDL (q : String) : Option DDL :=
  match after? "CREATE TABLE ".data q.data with
  | some s =>
    match after? ['('] (ident s).2 with
    | none => none
    | some body => (items? body).map (DDL.createTable (ident s).1)
  | none =>
    match after? "CREATE UNIQUE INDEX ".data q.data with
    | some s => parseIndex true s
    | none =>
      match after? "CREATE INDEX ".data q.data with
      | some s => parseIndex false s
      | none => none

/-- The names of the tables of a schema: the answer to the catalog query. -/
def tableNames (db : Schema) : List String :=
  (db.filter (fun r => r.kind = "table")).map (fun r => r.name)

/-- The store executing a query: only the catalog query is understood. -/
def sqliteQuery (db : Schema) (q : String) : Except Err Rows :=
  if q = catalogQuery then Except.ok ⟨(tableNames db).map Except.ok, none⟩
  else Except.error "unsupported query"

/-- The store executing a statement. -/
def sqliteExec (fault : String → Option Err) (db : Schema) (q : String) : Option Err × Schema :=
  match fault q with
  | some e => (some e, db)
  | none =>
    match parseDDL q with
    | none => (some "syntax error", db)
    | some (DDL.createTable name _) =>
      if db.any (fun r => r.name = name) then (some ("table " ++ name ++ " already exists"), db)
      else (none, db ++ [⟨"table", name, name, q⟩])
    | some (DDL.createIndex _ name table _) =>
      if db.any (fun r => r.name = name) then (some ("index " ++ name ++ " already exists"), db)
      else if table ∈ tableNames db then (none, db ++ [⟨"index", name, table, q⟩])
      else (some ("no such table: main." ++ table), db)

/-- A fresh transaction on the store with schema `db` in the environment `fault`. -/
def openTx (fault : String → Option Err) (db : Schema) : Tx Schema :=
  { db := db, query := sqliteQuery, exec := sqliteExec fault, trace := [] }

/-- The environment in which nothing fails. -/
def noFault : String → Option Err := fun _ => none

/-- The environment in which the statement `q` fails with the error `e`. -/
def failOn (q : String) (e : Err) : String → Option Err :=
  fun s => if s = q then some e else none

/-! ## Observations on a run -/

/-- The calls that a run from `tx` to `tx1` has added to the trace. -/
def newCalls (tx tx1 : Tx σ) : List Call := tx1.trace.drop tx.trace.length

/-- Whether a call is an `Exec` that returned an error. -/
def Call.failed : Call → Bool
  | Call.exec _ (some _) => true
  | _ => false

/-- The statements handed to `Exec`, in order. -/
def execSql : List Call → List String
  | [] => []
  | Call.exec q _ :: cs => q :: execSql cs
  | Call.query _ :: cs => execSql cs

/-- The table that a statement creates when it succeeds on the model, if any. -/
def tableOf (q : String) : Option String :=
  match parseDDL q with
  | some (DDL.createTable name _) => some name
  | _ => none

/-- The tables whose `CREATE TABLE` statement was handed to `Exec`, in order. -/
def createdTables (calls : List Call) : List String :=
  (execSql calls).filterMap tableOf

/-- The three entries that `getTableCreators` puts in the map, in the order of the
assignments (the registry order). -/
def registry : GoMap (tableCreator σ) :=
  [ (targetTableName, createTargetsTable),
    (subscriberTableName, createSubscribersTable),
    (targetSubscriberTableName, createTargetSubscriberTable) ]

/-- The registry tables that are absent from the catalog `names`, in registry order. -/
def missingTables (names : List String) : List String :=
  [targetTableName, subscriberTableName, targetSubscriberTableName].filter (fun k => k ∉ names)

/-- The statements of the creator registered under a table name. -/
def creatorQueries (name : String) : List String :=
  if name = targetTableName then createTargetsTableQueries
  else if name = subscriberTableName then createSubscribersTableQueries
  else if name = targetSubscriberTableName then createTargetSubscriberTableQueries
  else []

/-- The handle after the catalog query. -/
def afterQuery (tx : Tx σ) : Tx σ := { tx with trace := tx.trace ++ [Call.query catalogQuery] }

/-- The entries left in the map when the catalog holds `names`. -/
def missingEntries (names : List String) : GoMap (tableCreator σ) :=
  registry.filter (fun e => e.1 ∉ names)

/-- What the reconciler does once the catalog has been read as `names`. -/
def reconcile (seed : Nat) (names : List String) (tx : Tx σ) : (Bool × Option Err) × Tx σ :=
  if missingTables names = [] then ((false, none), afterQuery tx)
  else
    match execQueries (afterQuery tx) ((rangeOrder seed (missingTables names)).flatMap creatorQueries) with
    | (some err, tx2) => ((false, some err), tx2)
    | (none, tx2) => ((true, none), tx2)

/-- The handle runs on the model of the store, in the environment `fault`. -/
def Backed (fault : String → Option Err) (tx : Tx Schema) : Prop :=
  tx.query = sqliteQuery ∧ tx.exec = sqliteExec fault

/-! ## Concrete stores -/

/-- A store on which only the creator of `targets` has run (a run interrupted after
the first table). -/
def onlyTargets : Schema := (createTargetsTable (openTx noFault [])).2.db

/-- A store on which the three creators have run. -/
def fullStore : Schema := (initializeSchema 0 (openTx noFault [])).2.db

/-- A handle whose catalog query yields the row `targets`, then a row whose name
cannot be scanned, then the row `subscribers`. -/
def nullRowTx : Tx Schema :=
  { db := onlyTargets
    query := fun _ _ =>
      Except.ok ⟨[Except.ok "targets", Except.error "converting NULL to string is unsupported",
        Except.ok "subscribers"], none⟩
    exec := sqliteExec noFault
    trace := [] }

/-- A handle on a store holding the three tables, whose catalog read breaks off after
the row `targets`: `rows.Next()` turns false with `rows.Err()` set. -/
def truncatedReadTx : Tx Schema :=
  { db := fullStore
    query := fun _ _ => Except.ok ⟨[Except.ok "targets"], some "disk I/O error"⟩
    exec := sqliteExec noFault
    trace := [] }

/-- The error with which the iteration over the rows of a query ended, if any. -/
def iterationError : Except Err Rows → Option Err
  | Except.ok rows => rows.err
  | Except.error _ => none

/-- The first statement of `createTargetsTable`. -/
def targetsTableSql : String :=
  "CREATE TABLE targets(id INTEGER NOT NULL PRIMARY KEY,key TEXT NOT NULL,name TEXT NOT NULL,kind TEXT NOT NULL,enabled INTEGER NOT NULL);"

/-- The first statement of `createSubscribersTable`. -/
def subscribersTableSql : String :=
  "CREATE TABLE subscribers(id INTEGER NOT NULL PRIMARY KEY,name TEXT NOT NULL,event TEXT NOT NULL,method TEXT NOT NULL,url TEXT NOT NULL,headers TEXT,data TEXT);"

/-- The second statement of `createTargetsTable`. -/
def targetKeyIndexSql : String := "CREATE UNIQUE INDEX target_key_idx on targets(key);"

/-! ## The handle through a run -/

@[simp]
theorem Exec_fst (tx : Tx σ) (q : String) : (tx.Exec q).1 = (tx.exec tx.db q).1 := rfl

@[simp]
theorem Exec_trace (tx : Tx σ) (q : String) :
    (tx.Exec q).2.trace = tx.trace ++ [Call.exec q (tx.exec tx.db q).1] := rfl

@[simp]
theorem Exec_db (tx : Tx σ) (q : String) : (tx.Exec q).2.db = (tx.exec tx.db q).2 := rfl

@[simp]
theorem Exec_exec (tx : Tx σ) (q : String) : (tx.Exec q).2.exec = tx.exec := rfl

@[simp]
theorem Exec_query (tx : Tx σ) (q : String) : (tx.Exec q).2.query = tx.query := rfl

theorem execQueries_nil (tx : Tx σ) : execQueries tx [] = (none, tx) := rfl

theorem execQueries_cons_fail (tx : Tx σ) (q : String) (rest : List String) (e : Err)
    (h : (tx.exec tx.db q).1 = some e) :
    execQueries tx (q :: rest) = (some e, (tx.Exec q).2) := by
  have h1 : tx.Exec q = (some e, (tx.Exec q).2) := Prod.ext h rfl
  rw [execQueries, h1]

theorem execQueries_cons_ok (tx : Tx σ) (q : String) (rest : List String)
    (h : (tx.exec tx.db q).1 = none) :
    execQueries tx (q :: rest) = execQueries (tx.Exec q).2 rest := by
  have h1 : tx.Exec q = (none, (tx.Exec q).2) := Prod.ext h rfl
  rw [execQueries, h1]

theorem execQueries_exec (qs : List String) (tx : Tx σ) :
    (execQueries tx qs).2.exec = tx.exec := by
  induction qs generalizing tx with
  | nil => rfl
  | cons q rest ih =>
    cases h : (tx.exec tx.db q).1 with
    | none => rw [execQueries_cons_ok tx q rest h, ih]; rfl
    | some e => rw [execQueries_cons_fail tx q rest e h]; rfl

theorem execQueries_query (qs : List String) (tx : Tx σ) :
    (execQueries tx qs).2.query = tx.query := by
  induction qs generalizing tx with
  | nil => rfl
  | cons q rest ih =>
    cases h : (tx.exec tx.db q).1 with
    | none => rw [execQueries_cons_ok tx q rest h, ih]; rfl
    | some e => rw [execQueries_cons_fail tx q rest e h]; rfl

/-- Running two lists of statements one after the other is running their
concatenation, as long as the first list does not fail. -/
theorem execQueries_append (a b : List String) (tx : Tx σ) :
    execQueries tx (a ++ b) =
      match execQueries tx a with
      | (some e, tx1) => (some e, tx1)
      | (none, tx1) => execQueries tx1 b := by
  induction a generalizing tx with
  | nil => rfl
  | cons q rest ih =>
    cases h : (tx.exec tx.db q).1 with
    | none =>
      rw [List.cons_append, execQueries_cons_ok tx q _ h, execQueries_cons_ok tx q _ h, ih]
    | some e =>
      rw [List.cons_append, execQueries_cons_fail tx q _ e h, execQueries_cons_fail tx q _ e h]

theorem execQueries_append_ok (a b : List String) (tx : Tx σ)
    (h : (execQueries tx a).1 = none) :
    execQueries tx (a ++ b) = execQueries (execQueries tx a).2 b := by
  have h1 : execQueries tx a = (none, (execQueries tx a).2) := Prod.ext h rfl
  rw [execQueries_append, h1]

theorem execQueries_append_fail (a b : List String) (tx : Tx σ) (e : Err)
    (h : (execQueries tx a).1 = some e) :
    execQueries tx (a ++ b) = execQueries tx a := by
  have h1 : execQueries tx a = (some e, (execQueries tx a).2) := Prod.ext h rfl
  rw [execQueries_append, h1]

/-- The trace of a run of `execQueries` that returns nil. -/
theorem execQueries_trace_ok (qs : List String) (tx : Tx σ)
    (h : (execQueries tx qs).1 = none) :
    (execQueries tx qs).2.trace = tx.trace ++ qs.map (fun q => Call.exec q none) := by
  induction qs generalizing tx with
  | nil => simp [execQueries_nil]
  | cons q rest ih =>
    cases hq : (tx.exec tx.db q).1 with
    | none =>
      rw [execQueries_cons_ok tx q rest hq] at h ⊢
      rw [ih _ h]
      simp [hq]
    | some e =>
      rw [execQueries_cons_fail tx q rest e hq] at h
      simp at h

/-- The trace of a run of `execQueries` that returns an error: the statements before
the failing one succeeded, the failing one is the last one executed. -/
theorem execQueries_trace_fail (qs : List String) (tx : Tx σ) (e : Err)
    (h : (execQueries tx qs).1 = some e) :
    ∃ pre q post, qs = pre ++ q :: post ∧
      (execQueries tx qs).2.trace =
        tx.trace ++ pre.map (fun q => Call.exec q none) ++ [Call.exec q (some e)] := by
  induction qs generalizing tx with
  | nil => simp [execQueries_nil] at h
  | cons q rest ih =>
    cases hq : (tx.exec tx.db q).1 with
    | none =>
      rw [execQueries_cons_ok tx q rest hq] at h ⊢
      obtain ⟨pre, q1, post, hqs, htr⟩ := ih _ h
      refine ⟨q :: pre, q1, post, by rw [hqs]; rfl, ?_⟩
      rw [htr]
      simp [hq]
    | some e1 =>
      rw [execQueries_cons_fail tx q rest e1 hq] at h ⊢
      simp at h
      subst h
      exact ⟨[], q, rest, rfl, by simp [hq]⟩

/-! ## The catalog reader -/

theorem targets_ne_subscribers : targetTableName ≠ subscriberTableName := by decide

theorem targets_ne_link : targetTableName ≠ targetSubscriberTableName := by decide

theorem subscribers_ne_link : subscriberTableName ≠ targetSubscriberTableName := by decide

theorem registry_eq :
    GoMap.set (GoMap.set (GoMap.set ([] : GoMap (tableCreator σ)) targetTableName
      createTargetsTable) subscriberTableName createSubscribersTable)
      targetSubscriberTableName createTargetSubscriberTable = registry := by
  simp [GoMap.set, GoMap.delete, registry, targets_ne_subscribers, targets_ne_link,
    subscribers_ne_link]

/-- One turn of the loop over the rows removes the scanned name from a map whose keys
are registry names. -/
theorem scanRows_ok (names : List String) (m : GoMap (tableCreator σ))
    (hm : ∀ e ∈ m, e.1 = targetTableName ∨ e.1 = subscriberTableName ∨
      e.1 = targetSubscriberTableName) :
    scanRows (names.map Except.ok) m = (none, m.filter (fun e => e.1 ∉ names)) := by
  induction names generalizing m with
  | nil => simp [scanRows]
  | cons name rest ih =>
    have hstep : (if name = targetTableName then m.delete targetTableName
        else if name = subscriberTableName then m.delete subscriberTableName
        else if name = targetSubscriberTableName then m.delete targetSubscriberTableName
        else m) = m.filter (fun e => e.1 != name) := by
      by_cases h1 : name = targetTableName
      · rw [if_pos h1, h1]; rfl
      · by_cases h2 : name = subscriberTableName
        · rw [if_neg h1, if_pos h2, h2]; rfl
        · by_cases h3 : name = targetSubscriberTableName
          · rw [if_neg h1, if_neg h2, if_pos h3, h3]; rfl
          · rw [if_neg h1, if_neg h2, if_neg h3]
            symm
            rw [List.filter_eq_self]
            intro e he
            rcases hm e he with h | h | h <;> rw [h] <;> simp [Ne.symm h1, Ne.symm h2, Ne.symm h3]
    rw [List.map_cons, scanRows, hstep, ih]
    · rw [List.filter_filter]
      congr 1
      apply List.filter_congr
      intro e _
      by_cases ha : e.1 = name <;> by_cases hb : e.1 ∈ rest <;> simp [ha, hb]
    · intro e he
      exact hm e (List.mem_of_mem_filter he)

/-- The loop over the rows stops at the first row that cannot be scanned. -/
theorem scanRows_error (names : List String) (err : Err) (rest : List (Except Err String))
    (m : GoMap (tableCreator σ)) :
    (scanRows (names.map Except.ok ++ Except.error err :: rest) m).1 = some err := by
  induction names generalizing m with
  | nil => simp [scanRows]
  | cons name tl ih => rw [List.map_cons, List.cons_append, scanRows]; exact ih _

theorem registry_keys (e : String × tableCreator σ) (he : e ∈ (registry : GoMap (tableCreator σ))) :
    e.1 = targetTableName ∨ e.1 = subscriberTableName ∨ e.1 = targetSubscriberTableName := by
  simp only [registry, List.mem_cons, List.mem_singleton, List.not_mem_nil, or_false] at he
  rcases he with h | h | h <;> simp [h]

theorem getTableCreators_ok (tx : Tx σ) (rows : Rows) (names : List String)
    (hq : tx.query tx.db catalogQuery = Except.ok rows)
    (hs : rows.scans = names.map Except.ok) :
    getTableCreators tx = (Except.ok (missingEntries names), afterQuery tx) := by
  have h1 : tx.Query catalogQuery = (Except.ok rows, afterQuery tx) := by
    simp [Tx.Query, hq, afterQuery]
  simp only [getTableCreators, h1, registry_eq, hs, scanRows_ok names registry registry_keys]
  rfl

theorem getTableCreators_query_error (tx : Tx σ) (err : Err)
    (hq : tx.query tx.db catalogQuery = Except.error err) :
    getTableCreators tx = (Except.error err, afterQuery tx) := by
  have h1 : tx.Query catalogQuery = (Except.error err, afterQuery tx) := by
    simp [Tx.Query, hq, afterQuery]
  simp only [getTableCreators, h1]

theorem getTableCreators_scan_error (tx : Tx σ) (rows : Rows) (names : List String) (err : Err)
    (rest : List (Except Err String))
    (hq : tx.query tx.db catalogQuery = Except.ok rows)
    (hs : rows.scans = names.map Except.ok ++ Except.error err :: rest) :
    getTableCreators tx = (Except.error err, afterQuery tx) := by
  have h1 : tx.Query catalogQuery = (Except.ok rows, afterQuery tx) := by
    simp [Tx.Query, hq, afterQuery]
  have h2 := scanRows_error names err rest (registry : GoMap (tableCreator σ))
  simp only [getTableCreators, h1, hs, registry_eq]
  generalize scanRows _ _ = r at h2 ⊢
  obtain ⟨r1, r2⟩ := r
  simp only at h2
  subst h2
  rfl

/-- Every list of scan outcomes is all successes, or successes up to a first error. -/
theorem scans_cases (l : List (Except Err String)) :
    (∃ names : List String, l = names.map Except.ok) ∨
    (∃ (names : List String) (err : Err) (rest : List (Except Err String)),
      l = names.map Except.ok ++ Except.error err :: rest) := by
  induction l with
  | nil => exact Or.inl ⟨[], rfl⟩
  | cons a tl ih =>
    cases a with
    | error err => exact Or.inr ⟨[], err, tl, rfl⟩
    | ok name =>
      rcases ih with ⟨names, h⟩ | ⟨names, err, rest, h⟩
      · exact Or.inl ⟨name :: names, by rw [h]; rfl⟩
      · exact Or.inr ⟨name :: names, err, rest, by rw [h]; rfl⟩

theorem missingEntries_keys (names : List String) :
    (missingEntries names : GoMap (tableCreator σ)).map Prod.fst = missingTables names := by
  simp only [missingEntries, missingTables, registry]
  by_cases h1 : targetTableName ∈ names <;> by_cases h2 : subscriberTableName ∈ names <;>
    by_cases h3 : targetSubscriberTableName ∈ names <;> simp [List.filter_cons, h1, h2, h3]

theorem missingTables_nodup (names : List String) : (missingTables names).Nodup := by
  apply List.Nodup.filter
  simp [targetTableName, subscriberTableName, targetSubscriberTableName]

/-! ## The iteration over the map -/

theorem rangeOrder_perm {α : Type} (seed : Nat) (l : List α) : (rangeOrder seed l).Perm l := by
  have hpos : 0 < (l.permutations').length :=
    List.length_pos_of_mem (List.mem_permutations'.mpr (List.Perm.refl l))
  have hlt : seed % (l.permutations').length < (l.permutations').length := Nat.mod_lt _ hpos
  have hmem : rangeOrder seed l ∈ l.permutations' := by
    unfold rangeOrder
    rw [List.getD_eq_getElem _ _ hlt]
    exact List.getElem_mem _
  exact List.mem_permutations'.mp hmem

/-- Every permutation of the entries is the order of the iteration for some choice
of the runtime. -/
theorem rangeOrder_surj {α : Type} (l p : List α) (hp : p.Perm l) :
    ∃ seed, rangeOrder seed l = p := by
  obtain ⟨i, hi, hget⟩ := List.getElem_of_mem (List.mem_permutations'.mpr hp)
  refine ⟨i, ?_⟩
  unfold rangeOrder
  rw [Nat.mod_eq_of_lt hi, List.getD_eq_getElem _ _ hi, hget]

theorem rangeOrder_map {α β : Type} (f : α → β) (seed : Nat) (l : List α) :
    (rangeOrder seed l).map f = rangeOrder seed (l.map f) := by
  unfold rangeOrder
  rw [← List.map_permutations', List.length_map, List.getD_map]

theorem range_keys (seed : Nat) (names : List String) :
    (GoMap.range seed (missingEntries names : GoMap (tableCreator σ))).map Prod.fst =
      rangeOrder seed (missingTables names) := by
  rw [GoMap.range, rangeOrder_map, missingEntries_keys]

/-! ## The reconciler -/

theorem creatorQueries_targets : creatorQueries targetTableName = createTargetsTableQueries := by
  simp [creatorQueries]

theorem creatorQueries_subscribers :
    creatorQueries subscriberTableName = createSubscribersTableQueries := by
  simp [creatorQueries, Ne.symm targets_ne_subscribers]

theorem creatorQueries_link :
    creatorQueries targetSubscriberTableName = createTargetSubscriberTableQueries := by
  simp [creatorQueries, Ne.symm targets_ne_link, Ne.symm subscribers_ne_link]

theorem registry_creators (e : String × tableCreator σ)
    (he : e ∈ (registry : GoMap (tableCreator σ))) :
    e.2 = fun tx => execQueries tx (creatorQueries e.1) := by
  simp only [registry, List.mem_cons, List.mem_singleton, List.not_mem_nil, or_false] at he
  rcases he with h | h | h <;> subst h
  · simp only [creatorQueries_targets]; rfl
  · simp only [creatorQueries_subscribers]; rfl
  · simp only [creatorQueries_link]; rfl

/-- Calling the creators of registry entries one after the other, up to the first
error, is running `execQueries` on their statements put end to end. -/
theorem runCreators_eq (l : List (String × tableCreator σ)) (tx : Tx σ)
    (hl : ∀ e ∈ l, e.2 = fun tx => execQueries tx (creatorQueries e.1)) :
    runCreators l tx = execQueries tx ((l.map Prod.fst).flatMap creatorQueries) := by
  induction l generalizing tx with
  | nil => rfl
  | cons e rest ih =>
    obtain ⟨k, c⟩ := e
    have hc : c = fun tx => execQueries tx (creatorQueries k) := hl (k, c) (List.mem_cons_self _ _)
    have hrest : ∀ e ∈ rest, e.2 = fun tx => execQueries tx (creatorQueries e.1) :=
      fun e he => hl e (List.mem_cons_of_mem _ he)
    subst hc
    simp only [List.map_cons, List.flatMap_cons]
    rw [execQueries_append, runCreators]
    cases hr : execQueries tx (creatorQueries k) with
    | mk r tx1 =>
      cases r with
      | none => exact ih tx1 hrest
      | some err => rfl

theorem initializeSchema_ok (seed : Nat) (tx : Tx σ) (rows : Rows) (names : List String)
    (hq : tx.query tx.db catalogQuery = Except.ok rows)
    (hs : rows.scans = names.map Except.ok) :
    initializeSchema seed tx = reconcile seed names tx := by
  have hlen : (GoMap.len (missingEntries names : GoMap (tableCreator σ)) = 0) ↔
      missingTables names = [] := by
    rw [← missingEntries_keys (σ := σ), GoMap.len]
    simp
  have hrun : runCreators (GoMap.range seed (missingEntries names : GoMap (tableCreator σ)))
      (afterQuery tx) =
      execQueries (afterQuery tx) ((rangeOrder seed (missingTables names)).flatMap creatorQueries) := by
    rw [runCreators_eq, range_keys]
    intro e he
    apply registry_creators
    exact List.mem_of_mem_filter ((rangeOrder_perm seed _).mem_iff.mp he)
  simp only [initializeSchema, getTableCreators_ok tx rows names hq hs, reconcile, hrun]
  by_cases hm : missingTables names = []
  · rw [if_pos (hlen.mpr hm), if_pos hm]
  · rw [if_neg (fun h => hm (hlen.mp h)), if_neg hm]

theorem initializeSchema_query_error (seed : Nat) (tx : Tx σ) (err : Err)
    (hq : tx.query tx.db catalogQuery = Except.error err) :
    initializeSchema seed tx = ((false, some err), afterQuery tx) := by
  simp only [initializeSchema, getTableCreators_query_error tx err hq]

theorem initializeSchema_scan_error (seed : Nat) (tx : Tx σ) (rows : Rows) (names : List String)
    (err : Err) (rest : List (Except Err String))
    (hq : tx.query tx.db catalogQuery = Except.ok rows)
    (hs : rows.scans = names.map Except.ok ++ Except.error err :: rest) :
    initializeSchema seed tx = ((false, some err), afterQuery tx) := by
  simp only [initializeSchema, getTableCreators_scan_error tx rows names err rest hq hs]

/-! ## The shape of a run -/

theorem failed_map_ok (qs : List String) :
    ∀ c ∈ qs.map (fun q => Call.exec q none), Call.failed c = false := by
  intro c hc
  obtain ⟨q, _, rfl⟩ := List.mem_map.mp hc
  rfl

/-- A trace holds at most one failed call when the calls before any failed call are
not failed ones: the failed call is the last one. -/
theorem last_failed_unique (pre1 pre : List Call) (a b : Call) (post : List Call)
    (hpre1 : ∀ c ∈ pre1, Call.failed c = false) (hb : Call.failed b = true)
    (h : pre1 ++ [a] = pre ++ b :: post) : pre = pre1 ∧ b = a ∧ post = [] := by
  induction pre generalizing pre1 with
  | nil =>
    cases pre1 with
    | nil =>
      simp only [List.nil_append, List.cons.injEq] at h
      exact ⟨rfl, h.1.symm, h.2.symm⟩
    | cons c t =>
      simp only [List.cons_append, List.nil_append, List.cons.injEq] at h
      have := hpre1 c (List.mem_cons_self _ _)
      rw [h.1, hb] at this
      exact absurd this (by decide)
  | cons d pre2 ih =>
    cases pre1 with
    | nil =>
      simp only [List.nil_append, List.cons_append, List.cons.injEq] at h
      have := congrArg List.length h.2
      simp at this
      omega
    | cons c t =>
      simp only [List.cons_append, List.cons.injEq] at h
      obtain ⟨h1, h2, h3⟩ := ih t (fun c hc => hpre1 c (List.mem_cons_of_mem _ hc)) h.2
      exact ⟨by rw [h.1, h1], h2, h3⟩

theorem newCalls_append (tx tx1 : Tx σ) (calls : List Call) (h : tx1.trace = tx.trace ++ calls) :
    newCalls tx tx1 = calls := by
  simp [newCalls, h]

/-- The calls of a run of the reconciler: the catalog query, then statements that
succeed, then possibly one statement that fails and whose error is returned. -/
theorem run_shape (seed : Nat) (tx : Tx σ) :
    ∃ calls, (initializeSchema seed tx).2.trace = tx.trace ++ calls ∧
      ((∀ c ∈ calls, Call.failed c = false) ∨
       (∃ pre q e, calls = pre ++ [Call.exec q (some e)] ∧
          (∀ c ∈ pre, Call.failed c = false) ∧
          (initializeSchema seed tx).1 = (false, some e))) := by
  have hquery : ∀ c ∈ [Call.query catalogQuery], Call.failed c = false := by
    intro c hc
    rw [List.mem_singleton.mp hc]
    rfl
  cases hq : tx.query tx.db catalogQuery with
  | error err =>
    rw [initializeSchema_query_error seed tx err hq]
    exact ⟨[Call.query catalogQuery], rfl, Or.inl hquery⟩
  | ok rows =>
    rcases scans_cases rows.scans with ⟨names, hs⟩ | ⟨names, err, rest, hs⟩
    · rw [initializeSchema_ok seed tx rows names hq hs, reconcile]
      by_cases hm : missingTables names = []
      · rw [if_pos hm]
        exact ⟨[Call.query catalogQuery], rfl, Or.inl hquery⟩
      · rw [if_neg hm]
        cases hr : execQueries (afterQuery tx)
            ((rangeOrder seed (missingTables names)).flatMap creatorQueries) with
        | mk r tx2 =>
          cases r with
          | none =>
            have h1 := execQueries_trace_ok _ (afterQuery tx) (by rw [hr])
            rw [hr] at h1
            refine ⟨Call.query catalogQuery :: List.map (fun q => Call.exec q none)
              ((rangeOrder seed (missingTables names)).flatMap creatorQueries), ?_, Or.inl ?_⟩
            · have h2 : tx2.trace = _ := h1
              rw [h2]
              simp [afterQuery]
            · intro c hc
              rcases List.mem_cons.mp hc with h | h
              · rw [h]; rfl
              · exact failed_map_ok _ c h
          | some e =>
            obtain ⟨pre, q, post, _, h1⟩ := execQueries_trace_fail _ (afterQuery tx) e (by rw [hr])
            rw [hr] at h1
            refine ⟨Call.query catalogQuery :: pre.map (fun q => Call.exec q none) ++
              [Call.exec q (some e)], ?_, Or.inr ⟨Call.query catalogQuery ::
                pre.map (fun q => Call.exec q none), q, e, rfl, ?_, rfl⟩⟩
            · have h2 : tx2.trace = _ := h1
              rw [h2]
              simp [afterQuery]
            · intro c hc
              rcases List.mem_cons.mp hc with h | h
              · rw [h]; rfl
              · exact failed_map_ok _ c h
    · rw [initializeSchema_scan_error seed tx rows names err rest hq hs]
      exact ⟨[Call.query catalogQuery], rfl, Or.inl hquery⟩

/-- A run whose new calls end with a failed statement returns the error of that
statement, and that statement is the only failed one. -/
theorem run_failure (seed : Nat) (tx : Tx σ) (pre post : List Call) (q : String) (e : Err)
    (h : newCalls tx (initializeSchema seed tx).2 = pre ++ Call.exec q (some e) :: post) :
    post = [] ∧ (∀ c ∈ pre, Call.failed c = false) ∧
      (initializeSchema seed tx).1 = (false, some e) := by
  obtain ⟨calls, htr, hshape⟩ := run_shape seed tx
  rw [newCalls_append tx _ calls htr] at h
  rcases hshape with hall | ⟨pre1, q1, e1, hcalls, hpre1, hres⟩
  · have := hall (Call.exec q (some e)) (by rw [h]; simp)
    exact absurd this (by simp [Call.failed])
  · rw [hcalls] at h
    obtain ⟨h1, h2, h3⟩ := last_failed_unique pre1 pre (Call.exec q1 (some e1))
      (Call.exec q (some e)) post hpre1 rfl h
    simp only [Call.exec.injEq, Option.some.injEq] at h2
    refine ⟨h3, ?_, ?_⟩
    · rw [h1]; exact hpre1
    · rw [hres, h2.2]

/-! ## Runs on the model of the store -/

theorem backed_openTx (fault : String → Option Err) (db : Schema) : Backed fault (openTx fault db) :=
  ⟨rfl, rfl⟩

theorem backed_Exec (fault : String → Option Err) (tx : Tx Schema) (q : String)
    (hb : Backed fault tx) : Backed fault (tx.Exec q).2 := hb

theorem backed_execQueries (fault : String → Option Err) (tx : Tx Schema) (qs : List String)
    (hb : Backed fault tx) : Backed fault (execQueries tx qs).2 :=
  ⟨by rw [execQueries_query]; exact hb.1, by rw [execQueries_exec]; exact hb.2⟩

theorem tableNames_append (db : Schema) (r : MasterRow) :
    tableNames (db ++ [r]) = tableNames db ++ (if r.kind = "table" then [r.name] else []) := by
  unfold tableNames
  by_cases h : r.kind = "table" <;> simp [List.filter_append, List.filter_cons, h]

/-- A statement that succeeds on the model adds the table it creates to the catalog,
and nothing else. -/
theorem sqliteExec_tableNames (fault : String → Option Err) (db : Schema) (q : String)
    (h : (sqliteExec fault db q).1 = none) :
    tableNames (sqliteExec fault db q).2 = tableNames db ++ (tableOf q).toList := by
  unfold sqliteExec at h ⊢
  unfold tableOf
  cases hf : fault q with
  | some e => simp [hf] at h
  | none =>
    simp only [hf] at h ⊢
    cases hp : parseDDL q with
    | none => simp [hp] at h
    | some d =>
      cases d with
      | createTable name cols =>
        simp only [hp] at h ⊢
        by_cases hex : (db.any (fun r => r.name = name)) = true
        · simp [hex] at h
        · simp only [hex, if_false, Bool.false_eq_true]
          rw [tableNames_append]
          simp
      | createIndex u name table cols =>
        simp only [hp] at h ⊢
        by_cases hex : (db.any (fun r => r.name = name)) = true
        · simp [hex] at h
        · simp only [hex, if_false, Bool.false_eq_true] at h ⊢
          by_cases ht : table ∈ tableNames db
          · simp only [ht, if_true]
            rw [tableNames_append]
            simp
          · simp [ht] at h

/-- A run of `execQueries` that returns nil on the model adds to the catalog the
tables its statements create, in the order of the statements. -/
theorem execQueries_tableNames (fault : String → Option Err) (qs : List String) (tx : Tx Schema)
    (hb : Backed fault tx) (h : (execQueries tx qs).1 = none) :
    tableNames (execQueries tx qs).2.db = tableNames tx.db ++ qs.filterMap tableOf := by
  induction qs generalizing tx with
  | nil => simp [execQueries_nil]
  | cons q rest ih =>
    cases hq : (tx.exec tx.db q).1 with
    | some e =>
      rw [execQueries_cons_fail tx q rest e hq] at h
      simp at h
    | none =>
      rw [execQueries_cons_ok tx q rest hq] at h ⊢
      rw [ih _ (backed_Exec fault tx q hb) h, Exec_db]
      have hq1 : (sqliteExec fault tx.db q).1 = none := by rw [← hb.2]; exact hq
      rw [hb.2, sqliteExec_tableNames fault tx.db q hq1, List.filterMap_cons]
      cases tableOf q <;> simp

theorem tableOf_creatorQueries (k : String)
    (hk : k ∈ [targetTableName, subscriberTableName, targetSubscriberTableName]) :
    (creatorQueries k).filterMap tableOf = [k] := by
  simp only [List.mem_cons, List.mem_singleton, List.not_mem_nil, or_false] at hk
  rcases hk with h | h | h <;> subst h
  · rw [creatorQueries_targets]; decide
  · rw [creatorQueries_subscribers]; decide
  · rw [creatorQueries_link]; decide

theorem tableOf_flatMap (order : List String)
    (ho : ∀ k ∈ order, k ∈ [targetTableName, subscriberTableName, targetSubscriberTableName]) :
    (order.flatMap creatorQueries).filterMap tableOf = order := by
  induction order with
  | nil => rfl
  | cons k rest ih =>
    rw [List.flatMap_cons, List.filterMap_append,
      tableOf_creatorQueries k (ho k (List.mem_cons_self _ _)),
      ih (fun k hk => ho k (List.mem_cons_of_mem _ hk))]
    rfl

theorem missingTables_sub (names : List String) (k : String) (hk : k ∈ missingTables names) :
    k ∈ [targetTableName, subscriberTableName, targetSubscriberTableName] :=
  List.mem_of_mem_filter hk

theorem backed_query (fault : String → Option Err) (tx : Tx Schema) (hb : Backed fault tx) :
    tx.query tx.db catalogQuery = Except.ok ⟨(tableNames tx.db).map Except.ok, none⟩ := by
  rw [hb.1]
  simp [sqliteQuery]

/-- On the model the reconciler does what `reconcile` says for the names of the
catalog. -/
theorem initializeSchema_backed (fault : String → Option Err) (seed : Nat) (tx : Tx Schema)
    (hb : Backed fault tx) :
    initializeSchema seed tx = reconcile seed (tableNames tx.db) tx :=
  initializeSchema_ok seed tx _ (tableNames tx.db) (backed_query fault tx hb) rfl

theorem missingTables_nil (names : List String) (h1 : targetTableName ∈ names)
    (h2 : subscriberTableName ∈ names) (h3 : targetSubscriberTableName ∈ names) :
    missingTables names = [] := by
  simp [missingTables, List.filter_cons, h1, h2, h3]

/-- A run on the model in which no statement fails and something is missing: the
result, the trace and the catalog afterwards. -/
theorem run_backed_ok (fault : String → Option Err) (seed : Nat) (tx : Tx Schema)
    (hb : Backed fault tx) (hmiss : missingTables (tableNames tx.db) ≠ [])
    (hok : ∀ c ∈ newCalls tx (initializeSchema seed tx).2, Call.failed c = false) :
    (initializeSchema seed tx).1 = (true, none) ∧
    (initializeSchema seed tx).2.trace = tx.trace ++ Call.query catalogQuery ::
      ((rangeOrder seed (missingTables (tableNames tx.db))).flatMap creatorQueries).map
        (fun q => Call.exec q none) ∧
    tableNames (initializeSchema seed tx).2.db =
      tableNames tx.db ++ rangeOrder seed (missingTables (tableNames tx.db)) ∧
    Backed fault (initializeSchema seed tx).2 := by
  rw [initializeSchema_backed fault seed tx hb] at hok ⊢
  unfold reconcile at hok ⊢
  rw [if_neg hmiss] at hok ⊢
  have hba : Backed fault (afterQuery tx) := hb
  have hsub : ∀ k ∈ rangeOrder seed (missingTables (tableNames tx.db)),
      k ∈ [targetTableName, subscriberTableName, targetSubscriberTableName] :=
    fun k hk => missingTables_sub _ k ((rangeOrder_perm seed _).mem_iff.mp hk)
  cases hr : (execQueries (afterQuery tx)
      ((rangeOrder seed (missingTables (tableNames tx.db))).flatMap creatorQueries)).1 with
  | some e =>
    exfalso
    obtain ⟨pre, q, post, _, h1⟩ := execQueries_trace_fail _ (afterQuery tx) e hr
    have hr2 : execQueries (afterQuery tx)
        ((rangeOrder seed (missingTables (tableNames tx.db))).flatMap creatorQueries) =
        (some e, (execQueries (afterQuery tx)
        ((rangeOrder seed (missingTables (tableNames tx.db))).flatMap creatorQueries)).2) :=
      Prod.ext hr rfl
    rw [hr2] at hok
    have hmem : Call.exec q (some e) ∈ newCalls tx (execQueries (afterQuery tx)
        ((rangeOrder seed (missingTables (tableNames tx.db))).flatMap creatorQueries)).2 := by
      rw [newCalls_append tx _ (Call.query catalogQuery :: pre.map (fun q => Call.exec q none) ++
        [Call.exec q (some e)]) (by rw [h1]; simp [afterQuery])]
      simp
    exact absurd (hok _ hmem) (by simp [Call.failed])
  | none =>
    have h1 := execQueries_trace_ok _ (afterQuery tx) hr
    have h2 := execQueries_tableNames fault _ (afterQuery tx) hba hr
    have h3 := backed_execQueries fault (afterQuery tx)
      ((rangeOrder seed (missingTables (tableNames tx.db))).flatMap creatorQueries) hba
    have hr2 : execQueries (afterQuery tx)
        ((rangeOrder seed (missingTables (tableNames tx.db))).flatMap creatorQueries) =
        (none, (execQueries (afterQuery tx)
        ((rangeOrder seed (missingTables (tableNames tx.db))).flatMap creatorQueries)).2) :=
      Prod.ext hr rfl
    rw [tableOf_flatMap _ hsub] at h2
    rw [hr2]
    refine ⟨rfl, ?_, h2, h3⟩
    show (execQueries (afterQuery tx) _).2.trace = _
    rw [h1]
    simp [afterQuery]

/-- A run on the model when the catalog holds the three tables. -/
theorem run_backed_noop (fault : String → Option Err) (seed : Nat) (tx : Tx Schema)
    (hb : Backed fault tx) (h1 : targetTableName ∈ tableNames tx.db)
    (h2 : subscriberTableName ∈ tableNames tx.db)
    (h3 : targetSubscriberTableName ∈ tableNames tx.db) :
    initializeSchema seed tx = ((false, none), afterQuery tx) := by
  rw [initializeSchema_backed fault seed tx hb, reconcile, if_pos (missingTables_nil _ h1 h2 h3)]

/-- Every registry table is in the catalog or among the missing ones. -/
theorem registry_covered (names order : List String) (ho : order.Perm (missingTables names))
    (k : String) (hk : k ∈ [targetTableName, subscriberTableName, targetSubscriberTableName]) :
    k ∈ names ++ order := by
  rw [List.mem_append]
  by_cases h : k ∈ names
  · exact Or.inl h
  · refine Or.inr (ho.mem_iff.mpr ?_)
    exact List.mem_filter.mpr ⟨hk, by simpa using h⟩

/-! ## The properties of the specification -/

theorem missingEntries_get_targets (names : List String) (h : targetTableName ∉ names) :
    GoMap.get? (missingEntries names : GoMap (tableCreator σ)) targetTableName =
      some createTargetsTable := by
  simp [GoMap.get?, missingEntries, registry, List.filter_cons, h]

theorem missingEntries_get_subscribers (names : List String) (h : subscriberTableName ∉ names) :
    GoMap.get? (missingEntries names : GoMap (tableCreator σ)) subscriberTableName =
      some createSubscribersTable := by
  by_cases h1 : targetTableName ∈ names <;>
    simp [GoMap.get?, missingEntries, registry, List.filter_cons, h, h1, targets_ne_subscribers]

theorem missingEntries_get_link (names : List String) (h : targetSubscriberTableName ∉ names) :
    GoMap.get? (missingEntries names : GoMap (tableCreator σ)) targetSubscriberTableName =
      some createTargetSubscriberTable := by
  by_cases h1 : targetTableName ∈ names <;> by_cases h2 : subscriberTableName ∈ names <;>
    simp [GoMap.get?, missingEntries, registry, List.filter_cons, h, h1, h2, targets_ne_link,
      subscribers_ne_link]

/-- C1: when the catalog query and every row scan succeed, with the catalog holding
any list `names` of table names (repeated or foreign names included),
`getTableCreators` returns a map without repeated keys, whose keys are exactly the
three registry names that are not in `names`, each mapped to its own creator. -/
theorem getTableCreators_missing (tx : Tx σ) (rows : Rows) (names : List String)
    (hq : tx.query tx.db catalogQuery = Except.ok rows)
    (hs : rows.scans = names.map Except.ok) :
    ∃ tables : GoMap (tableCreator σ),
      (getTableCreators tx).1 = Except.ok tables ∧
      (tables.map Prod.fst).Nodup ∧
      (∀ k, k ∈ tables.map Prod.fst ↔
        (k ∈ [targetTableName, subscriberTableName, targetSubscriberTableName] ∧ k ∉ names)) ∧
      (targetTableName ∉ names →
        GoMap.get? tables targetTableName = some createTargetsTable) ∧
      (subscriberTableName ∉ names →
        GoMap.get? tables subscriberTableName = some createSubscribersTable) ∧
      (targetSubscriberTableName ∉ names →
        GoMap.get? tables targetSubscriberTableName = some createTargetSubscriberTable) := by
  refine ⟨missingEntries names, ?_, ?_, ?_, missingEntries_get_targets names,
    missingEntries_get_subscribers names, missingEntries_get_link names⟩
  · rw [getTableCreators_ok tx rows names hq hs]
  · rw [missingEntries_keys]; exact missingTables_nodup names
  · intro k
    rw [missingEntries_keys, missingTables, List.mem_filter]
    simp

/-- C2: when the catalog read succeeds and holds the three registry tables (whatever
else it holds), the reconciler returns `(false, nil)`; the only call it makes is
the catalog query, and the store is left as it was. -/
theorem initialize_noop (seed : Nat) (tx : Tx σ) (rows : Rows) (names : List String)
    (hq : tx.query tx.db catalogQuery = Except.ok rows)
    (hs : rows.scans = names.map Except.ok)
    (h1 : targetTableName ∈ names) (h2 : subscriberTableName ∈ names)
    (h3 : targetSubscriberTableName ∈ names) :
    (initializeSchema seed tx).1 = (false, none) ∧
    (initializeSchema seed tx).2.trace = tx.trace ++ [Call.query catalogQuery] ∧
    execSql (newCalls tx (initializeSchema seed tx).2) = [] ∧
    (initializeSchema seed tx).2.db = tx.db := by
  rw [initializeSchema_ok seed tx rows names hq hs, reconcile,
    if_pos (missingTables_nil names h1 h2 h3)]
  refine ⟨rfl, rfl, ?_, rfl⟩
  rw [newCalls_append tx (afterQuery tx) [Call.query catalogQuery] rfl]
  rfl

/-- C3: on the model of the store, when a registry table is missing and no statement
of the first run fails, the first run returns `(true, nil)`, a second run (on the
same handle, or on a fresh transaction in any environment) returns `(false, nil)`,
and the schema after the second run is the schema after the first. -/
theorem initialize_twice (seed1 seed2 : Nat) (fault fault2 : String → Option Err) (db : Schema)
    (hmiss : missingTables (tableNames db) ≠ [])
    (hok : ∀ c ∈ (initializeSchema seed1 (openTx fault db)).2.trace, Call.failed c = false) :
    (initializeSchema seed1 (openTx fault db)).1 = (true, none) ∧
    (initializeSchema seed2 (initializeSchema seed1 (openTx fault db)).2).1 = (false, none) ∧
    (initializeSchema seed2 (initializeSchema seed1 (openTx fault db)).2).2.db =
      (initializeSchema seed1 (openTx fault db)).2.db ∧
    (initializeSchema seed2 (openTx fault2 (initializeSchema seed1 (openTx fault db)).2.db)).1 =
      (false, none) ∧
    (initializeSchema seed2 (openTx fault2 (initializeSchema seed1 (openTx fault db)).2.db)).2.db =
      (initializeSchema seed1 (openTx fault db)).2.db := by
  obtain ⟨hres, _, htab, hb⟩ := run_backed_ok fault seed1 (openTx fault db)
    (backed_openTx fault db) hmiss (by
      intro c hc
      exact hok c (by simpa [newCalls, openTx] using hc))
  have hcov : ∀ k ∈ [targetTableName, subscriberTableName, targetSubscriberTableName],
      k ∈ tableNames (initializeSchema seed1 (openTx fault db)).2.db := by
    intro k hk
    rw [htab]
    exact registry_covered _ _ (rangeOrder_perm seed1 _) k hk
  have ht := hcov targetTableName (by simp)
  have hsb := hcov subscriberTableName (by simp)
  have hl := hcov targetSubscriberTableName (by simp)
  refine ⟨hres, ?_, ?_, ?_, ?_⟩
  · rw [run_backed_noop fault seed2 _ hb ht hsb hl]
  · rw [run_backed_noop fault seed2 _ hb ht hsb hl]; rfl
  · rw [run_backed_noop fault2 seed2 _ (backed_openTx fault2 _) ht hsb hl]
  · rw [run_backed_noop fault2 seed2 _ (backed_openTx fault2 _) ht hsb hl]; rfl

/-- C4: on the model of the store, when some registry tables are missing and no
statement fails, the reconciler returns `(true, nil)`; its calls are the catalog
query followed by the statements of the creators of the missing tables, each
creator once, none for a table of the catalog; the catalog afterwards is the old
one followed by the missing tables. On a store holding only `targets` the tables
created are `subscribers` and `target_subscriber`; on an empty store the catalog
afterwards holds exactly the three tables. -/
theorem initialize_creates_missing (seed : Nat) (fault : String → Option Err) (db : Schema)
    (hmiss : missingTables (tableNames db) ≠ [])
    (hok : ∀ c ∈ (initializeSchema seed (openTx fault db)).2.trace, Call.failed c = false) :
    (initializeSchema seed (openTx fault db)).1 = (true, none) ∧
    ∃ order : List String,
      order.Perm (missingTables (tableNames db)) ∧ order.Nodup ∧
      (∀ k ∈ order, k ∉ tableNames db) ∧
      (initializeSchema seed (openTx fault db)).2.trace =
        Call.query catalogQuery ::
          (order.flatMap creatorQueries).map (fun q => Call.exec q none) ∧
      tableNames (initializeSchema seed (openTx fault db)).2.db = tableNames db ++ order ∧
      (tableNames db = [targetTableName] →
        order.Perm [subscriberTableName, targetSubscriberTableName]) ∧
      (tableNames db = [] →
        (tableNames (initializeSchema seed (openTx fault db)).2.db).Perm
          [targetTableName, subscriberTableName, targetSubscriberTableName]) := by
  obtain ⟨hres, htr, htab, _⟩ := run_backed_ok fault seed (openTx fault db)
    (backed_openTx fault db) hmiss (by
      intro c hc
      exact hok c (by simpa [newCalls, openTx] using hc))
  have hperm := rangeOrder_perm seed (missingTables (tableNames db))
  refine ⟨hres, rangeOrder seed (missingTables (tableNames db)), hperm,
    hperm.nodup_iff.mpr (missingTables_nodup _), ?_, ?_, htab, ?_, ?_⟩
  · intro k hk
    have := (List.mem_filter.mp (hperm.mem_iff.mp hk)).2
    simpa using this
  · rw [htr]; rfl
  · intro h
    have hm : missingTables (tableNames db) =
        [subscriberTableName, targetSubscriberTableName] := by
      rw [h]; decide
    rw [← hm]; exact hperm
  · intro h
    have hm : missingTables (tableNames db) =
        [targetTableName, subscriberTableName, targetSubscriberTableName] := by
      rw [h]; decide
    rw [htab]
    show (tableNames db ++ _).Perm _
    rw [h, List.nil_append, ← hm]
    exact hperm

/-- C5: in a run of the reconciler in which a statement fails, the failed statement
is the last call of the run (no statement of the same or of another creator comes
after it), no call before it failed, and the reconciler returns `(false, err)` with
`err` the error of that statement. -/
theorem initialize_stops_at_first_failure (seed : Nat) (tx : Tx σ) (pre post : List Call)
    (q : String) (e : Err)
    (h : newCalls tx (initializeSchema seed tx).2 = pre ++ Call.exec q (some e) :: post) :
    post = [] ∧ (∀ c ∈ pre, Call.failed c = false) ∧
      (initializeSchema seed tx).1 = (false, some e) :=
  run_failure seed tx pre post q e h

theorem execSql_map_ok (qs : List String) :
    execSql (qs.map (fun q => Call.exec q none)) = qs := by
  induction qs with
  | nil => rfl
  | cons q rest ih => simp only [List.map_cons, execSql, ih]

theorem execSql_append (a b : List Call) : execSql (a ++ b) = execSql a ++ execSql b := by
  induction a with
  | nil => rfl
  | cons c rest ih =>
    cases c with
    | query q => simpa [execSql] using ih
    | exec q e => simpa [execSql] using ih

/-- The statements that a run of `execQueries` hands to `Exec` are an initial segment
of its list. -/
theorem execQueries_segment (qs : List String) (tx : Tx σ) :
    ∃ done, (execQueries tx qs).2.trace = tx.trace ++ done ∧ execSql done <+: qs := by
  cases hr : (execQueries tx qs).1 with
  | none =>
    exact ⟨_, execQueries_trace_ok qs tx hr, by rw [execSql_map_ok]⟩
  | some e =>
    obtain ⟨pre, q, post, hqs, htr⟩ := execQueries_trace_fail qs tx e hr
    refine ⟨pre.map (fun q => Call.exec q none) ++ [Call.exec q (some e)], ?_, ?_⟩
    · rw [htr, List.append_assoc]
    · rw [execSql_append, execSql_map_ok, hqs]
      exact ⟨post, by simp [execSql]⟩

/-- C6, as the code has it: the reconciler visits the missing tables in the order
in which the iteration over the map yields them, which is some permutation of the
missing tables and need not be the registry order; the statements it executes
are an initial segment of the statements of the creators taken in that order. -/
theorem initialize_follows_map_order (seed : Nat) (tx : Tx σ) (rows : Rows)
    (names : List String)
    (hq : tx.query tx.db catalogQuery = Except.ok rows)
    (hs : rows.scans = names.map Except.ok) :
    (GoMap.range seed (missingEntries names : GoMap (tableCreator σ))).map Prod.fst =
      rangeOrder seed (missingTables names) ∧
    (rangeOrder seed (missingTables names)).Perm (missingTables names) ∧
    execSql (newCalls tx (initializeSchema seed tx).2) <+:
      (rangeOrder seed (missingTables names)).flatMap creatorQueries := by
  refine ⟨range_keys seed names, rangeOrder_perm seed _, ?_⟩
  rw [initializeSchema_ok seed tx rows names hq hs, reconcile]
  by_cases hm : missingTables names = []
  · rw [if_pos hm, newCalls_append tx (afterQuery tx) [Call.query catalogQuery] rfl]
    exact List.nil_prefix
  · rw [if_neg hm]
    obtain ⟨done, htr, hseg⟩ := execQueries_segment
      ((rangeOrder seed (missingTables names)).flatMap creatorQueries) (afterQuery tx)
    have hnew : newCalls tx (execQueries (afterQuery tx)
        ((rangeOrder seed (missingTables names)).flatMap creatorQueries)).2 =
        Call.query catalogQuery :: done :=
      newCalls_append tx _ _ (by rw [htr]; simp [afterQuery])
    cases hr : execQueries (afterQuery tx)
        ((rangeOrder seed (missingTables names)).flatMap creatorQueries) with
    | mk r tx2 =>
      rw [hr] at hnew
      cases r with
      | none => show execSql (newCalls tx tx2) <+: _; rw [hnew]; exact hseg
      | some e => show execSql (newCalls tx tx2) <+: _; rw [hnew]; exact hseg

/-- The two failures of the catalog read that the code looks at: when `tx.Query`
returns an error, or some row cannot be scanned (the rows before it being
scanned), `getTableCreators` returns the error and no map, and the reconciler
returns `(false, err)` with the same error, having made no call but the catalog
query and left the store as it was. -/
theorem query_or_scan_failure (seed : Nat) (tx : Tx σ) (err : Err)
    (h : tx.query tx.db catalogQuery = Except.error err ∨
      ∃ (rows : Rows) (names : List String) (rest : List (Except Err String)),
        tx.query tx.db catalogQuery = Except.ok rows ∧
        rows.scans = names.map Except.ok ++ Except.error err :: rest) :
    (getTableCreators tx).1 = Except.error err ∧
    (initializeSchema seed tx).1 = (false, some err) ∧
    (initializeSchema seed tx).2.trace = tx.trace ++ [Call.query catalogQuery] ∧
    (initializeSchema seed tx).2.db = tx.db := by
  rcases h with hq | ⟨rows, names, rest, hq, hs⟩
  · rw [getTableCreators_query_error tx err hq, initializeSchema_query_error seed tx err hq]
    exact ⟨rfl, rfl, rfl, rfl⟩
  · rw [getTableCreators_scan_error tx rows names err rest hq hs,
      initializeSchema_scan_error seed tx rows names err rest hq hs]
    exact ⟨rfl, rfl, rfl, rfl⟩

/-- The failure of the catalog read that the code does not look at: when the
iteration over the rows ends with an error after the rows `names`, the error is
dropped and the map is computed from the rows read so far. -/
theorem getTableCreators_drops_iteration_error (tx : Tx σ) (rows : Rows) (names : List String)
    (e : Err) (hq : tx.query tx.db catalogQuery = Except.ok rows)
    (hs : rows.scans = names.map Except.ok) (_he : rows.err = some e) :
    getTableCreators tx = (Except.ok (missingEntries names), afterQuery tx) :=
  getTableCreators_ok tx rows names hq hs

/-- C7 fails on the code: on a store holding the three tables, a catalog read that
breaks off after the row `targets` with an error is not reported. `getTableCreators`
returns nil as error and a map with the creators of `subscribers` and
`target_subscriber`, built from the partial catalog; the reconciler then runs a
creator, and the error it returns is that of a `CREATE TABLE` on an existing table,
not the error of the catalog read. -/
theorem catalog_iteration_error_dropped :
    tableNames truncatedReadTx.db = ["targets", "subscribers", "target_subscriber"] ∧
    iterationError (truncatedReadTx.query truncatedReadTx.db catalogQuery) =
      some "disk I/O error" ∧
    (getTableCreators truncatedReadTx).1.toOption.map (fun tables => tables.map Prod.fst) =
      some ["subscribers", "target_subscriber"] ∧
    (initializeSchema 0 truncatedReadTx).1 =
      (false, some "table subscribers already exists") ∧
    newCalls truncatedReadTx (initializeSchema 0 truncatedReadTx).2 =
      [ Call.query catalogQuery,
        Call.exec subscribersTableSql (some "table subscribers already exists") ] :=
  ⟨by decide, by decide, by decide, by decide, by decide⟩

/-- C8: `execQueries` hands the statements to `Exec` in list order. It returns nil
exactly when every statement of the list was executed and succeeded (so also for
the empty list); when it returns an error, the statements before some statement
of the list were executed and succeeded, that statement was executed and failed
with the returned error, and no statement after it was executed. -/
theorem execQueries_contract (tx : Tx σ) (queries : List String) :
    ((execQueries tx queries).1 = none ↔
      (execQueries tx queries).2.trace =
        tx.trace ++ queries.map (fun q => Call.exec q none)) ∧
    (∀ e, (execQueries tx queries).1 = some e →
      ∃ pre q post, queries = pre ++ q :: post ∧
        (execQueries tx queries).2.trace =
          tx.trace ++ pre.map (fun q => Call.exec q none) ++ [Call.exec q (some e)]) ∧
    (∃ done, (execQueries tx queries).2.trace = tx.trace ++ done ∧
      execSql done <+: queries) := by
  refine ⟨⟨execQueries_trace_ok queries tx, ?_⟩, execQueries_trace_fail queries tx,
    execQueries_segment queries tx⟩
  intro htr
  cases hr : (execQueries tx queries).1 with
  | none => rfl
  | some e =>
    exfalso
    obtain ⟨pre, q, post, _, h1⟩ := execQueries_trace_fail queries tx e hr
    rw [htr, List.append_assoc] at h1
    have h2 := List.append_cancel_left h1
    have hmem : Call.exec q (some e) ∈ queries.map (fun q => Call.exec q none) := by
      rw [h2]; simp
    exact absurd (failed_map_ok queries _ hmem) (by simp [Call.failed])

theorem targets_statements : createTargetsTableQueries =
    [ "CREATE TABLE targets(id INTEGER NOT NULL PRIMARY KEY,key TEXT NOT NULL,name TEXT NOT NULL,kind TEXT NOT NULL,enabled INTEGER NOT NULL);",
      "CREATE UNIQUE INDEX target_key_idx on targets(key);",
      "CREATE UNIQUE INDEX target_name_idx on targets(name);" ] := by
  rfl

theorem subscribers_statements : createSubscribersTableQueries =
    [ "CREATE TABLE subscribers(id INTEGER NOT NULL PRIMARY KEY,name TEXT NOT NULL,event TEXT NOT NULL,method TEXT NOT NULL,url TEXT NOT NULL,headers TEXT,data TEXT);",
      "CREATE UNIQUE INDEX subscriber_name_idx on subscribers(name);" ] := by
  rfl

theorem link_statements : createTargetSubscriberTableQueries =
    [ "CREATE TABLE target_subscriber(event TEXT NOT NULL,enabled INTEGER NOT NULL,target_id INTEGER REFERENCES targets(id) ON DELETE CASCADE,subscriber_id INTEGER REFERENCES subscribers(id) ON DELETE CASCADE);",
      "CREATE INDEX target_subscriber_idx on target_subscriber(target_id, subscriber_id);" ] := by
  rfl

/-- C9: the statements of the three creators, in order: the table and then its
indexes, with the columns, constraints and index kinds of the structural contract,
and nothing else. -/
theorem creators_statements :
    (∀ (σ : Type) (tx : Tx σ), createTargetsTable tx = execQueries tx
      [ "CREATE TABLE targets(id INTEGER NOT NULL PRIMARY KEY,key TEXT NOT NULL,name TEXT NOT NULL,kind TEXT NOT NULL,enabled INTEGER NOT NULL);",
        "CREATE UNIQUE INDEX target_key_idx on targets(key);",
        "CREATE UNIQUE INDEX target_name_idx on targets(name);" ]) ∧
    (∀ (σ : Type) (tx : Tx σ), createSubscribersTable tx = execQueries tx
      [ "CREATE TABLE subscribers(id INTEGER NOT NULL PRIMARY KEY,name TEXT NOT NULL,event TEXT NOT NULL,method TEXT NOT NULL,url TEXT NOT NULL,headers TEXT,data TEXT);",
        "CREATE UNIQUE INDEX subscriber_name_idx on subscribers(name);" ]) ∧
    (∀ (σ : Type) (tx : Tx σ), createTargetSubscriberTable tx = execQueries tx
      [ "CREATE TABLE target_subscriber(event TEXT NOT NULL,enabled INTEGER NOT NULL,target_id INTEGER REFERENCES targets(id) ON DELETE CASCADE,subscriber_id INTEGER REFERENCES subscribers(id) ON DELETE CASCADE);",
        "CREATE INDEX target_subscriber_idx on target_subscriber(target_id, subscriber_id);" ]) ∧
    createTargetsTableQueries.map parseDDL =
      [ some (DDL.createTable "targets"
          [ "id INTEGER NOT NULL PRIMARY KEY", "key TEXT NOT NULL", "name TEXT NOT NULL",
            "kind TEXT NOT NULL", "enabled INTEGER NOT NULL" ]),
        some (DDL.createIndex true "target_key_idx" "targets" ["key"]),
        some (DDL.createIndex true "target_name_idx" "targets" ["name"]) ] ∧
    createSubscribersTableQueries.map parseDDL =
      [ some (DDL.createTable "subscribers"
          [ "id INTEGER NOT NULL PRIMARY KEY", "name TEXT NOT NULL", "event TEXT NOT NULL",
            "method TEXT NOT NULL", "url TEXT NOT NULL", "headers TEXT", "data TEXT" ]),
        some (DDL.createIndex true "subscriber_name_idx" "subscribers" ["name"]) ] ∧
    createTargetSubscriberTableQueries.map parseDDL =
      [ some (DDL.createTable "target_subscriber"
          [ "event TEXT NOT NULL", "enabled INTEGER NOT NULL",
            "target_id INTEGER REFERENCES targets(id) ON DELETE CASCADE",
            "subscriber_id INTEGER REFERENCES subscribers(id) ON DELETE CASCADE" ]),
        some (DDL.createIndex false "target_subscriber_idx" "target_subscriber"
          ["target_id", "subscriber_id"]) ] := by
  exact ⟨fun _ tx => congrArg (execQueries tx) targets_statements,
    fun _ tx => congrArg (execQueries tx) subscribers_statements,
    fun _ tx => congrArg (execQueries tx) link_statements, by decide, by decide, by decide⟩

/-- C10, as the code has it: the error the reconciler returns for a failed statement
is the error of the store for that statement and nothing more; two runs whose
failed statements got the same error from the store return the same result,
whichever statements failed. -/
theorem initialize_error_unwrapped (seed1 seed2 : Nat) (tx1 tx2 : Tx σ)
    (pre1 pre2 : List Call) (q1 q2 : String) (e : Err)
    (h1 : newCalls tx1 (initializeSchema seed1 tx1).2 = pre1 ++ [Call.exec q1 (some e)])
    (h2 : newCalls tx2 (initializeSchema seed2 tx2).2 = pre2 ++ [Call.exec q2 (some e)]) :
    (initializeSchema seed1 tx1).1 = (false, some e) ∧
    (initializeSchema seed2 tx2).1 = (initializeSchema seed1 tx1).1 := by
  have r1 := (run_failure seed1 tx1 pre1 [] q1 e h1).2.2
  have r2 := (run_failure seed2 tx2 pre2 [] q2 e h2).2.2
  exact ⟨r1, by rw [r1, r2]⟩

/-! ## The properties at concrete stores -/

theorem getTableCreators_missing_witness :
    (openTx noFault onlyTargets).query (openTx noFault onlyTargets).db catalogQuery =
      Except.ok ⟨[Except.ok "targets"], none⟩ ∧
    ∃ tables : GoMap (tableCreator Schema),
      (getTableCreators (openTx noFault onlyTargets)).1 = Except.ok tables ∧
      (tables.map Prod.fst).Nodup ∧
      (∀ k, k ∈ tables.map Prod.fst ↔
        (k ∈ [targetTableName, subscriberTableName, targetSubscriberTableName] ∧
          k ∉ ["targets"])) ∧
      (targetTableName ∉ ["targets"] →
        GoMap.get? tables targetTableName = some createTargetsTable) ∧
      (subscriberTableName ∉ ["targets"] →
        GoMap.get? tables subscriberTableName = some createSubscribersTable) ∧
      (targetSubscriberTableName ∉ ["targets"] →
        GoMap.get? tables targetSubscriberTableName = some createTargetSubscriberTable) :=
  ⟨rfl, getTableCreators_missing (openTx noFault onlyTargets) ⟨[Except.ok "targets"], none⟩
    ["targets"] rfl rfl⟩

theorem initialize_noop_witness :
    tableNames fullStore = ["targets", "subscribers", "target_subscriber"] ∧
    (initializeSchema 3 (openTx noFault fullStore)).1 = (false, none) ∧
    (initializeSchema 3 (openTx noFault fullStore)).2.trace =
      (openTx noFault fullStore).trace ++ [Call.query catalogQuery] ∧
    execSql (newCalls (openTx noFault fullStore)
      (initializeSchema 3 (openTx noFault fullStore)).2) = [] ∧
    (initializeSchema 3 (openTx noFault fullStore)).2.db = (openTx noFault fullStore).db :=
  ⟨by decide, initialize_noop 3 (openTx noFault fullStore)
    ⟨["targets", "subscribers", "target_subscriber"].map Except.ok, none⟩
    ["targets", "subscribers", "target_subscriber"] rfl rfl (by decide) (by decide) (by decide)⟩

theorem initialize_twice_witness :
    missingTables (tableNames onlyTargets) = ["subscribers", "target_subscriber"] ∧
    (initializeSchema 1 (openTx noFault onlyTargets)).1 = (true, none) ∧
    (initializeSchema 0 (initializeSchema 1 (openTx noFault onlyTargets)).2).1 = (false, none) ∧
    (initializeSchema 0 (initializeSchema 1 (openTx noFault onlyTargets)).2).2.db =
      (initializeSchema 1 (openTx noFault onlyTargets)).2.db ∧
    (initializeSchema 0
      (openTx noFault (initializeSchema 1 (openTx noFault onlyTargets)).2.db)).1 =
      (false, none) ∧
    (initializeSchema 0
      (openTx noFault (initializeSchema 1 (openTx noFault onlyTargets)).2.db)).2.db =
      (initializeSchema 1 (openTx noFault onlyTargets)).2.db :=
  ⟨by decide, initialize_twice 1 0 noFault noFault onlyTargets (by decide) (by decide)⟩

theorem initialize_creates_missing_witness :
    (initializeSchema 4 (openTx noFault [])).1 = (true, none) ∧
    ∃ order : List String,
      order.Perm (missingTables (tableNames [])) ∧ order.Nodup ∧
      (∀ k ∈ order, k ∉ tableNames []) ∧
      (initializeSchema 4 (openTx noFault [])).2.trace =
        Call.query catalogQuery ::
          (order.flatMap creatorQueries).map (fun q => Call.exec q none) ∧
      tableNames (initializeSchema 4 (openTx noFault [])).2.db = tableNames [] ++ order ∧
      (tableNames [] = [targetTableName] →
        order.Perm [subscriberTableName, targetSubscriberTableName]) ∧
      (tableNames [] = [] →
        (tableNames (initializeSchema 4 (openTx noFault [])).2.db).Perm
          [targetTableName, subscriberTableName, targetSubscriberTableName]) :=
  initialize_creates_missing 4 noFault [] (by decide) (by decide)

theorem initialize_stops_at_first_failure_witness :
    newCalls (openTx (failOn targetKeyIndexSql "database is locked") [])
      (initializeSchema 0 (openTx (failOn targetKeyIndexSql "database is locked") [])).2 =
      [Call.query catalogQuery, Call.exec targetsTableSql none] ++
        Call.exec targetKeyIndexSql (some "database is locked") :: [] ∧
    (([] : List Call) = [] ∧
      (∀ c ∈ [Call.query catalogQuery, Call.exec targetsTableSql none], Call.failed c = false) ∧
      (initializeSchema 0 (openTx (failOn targetKeyIndexSql "database is locked") [])).1 =
        (false, some "database is locked")) :=
  ⟨by decide, initialize_stops_at_first_failure 0
    (openTx (failOn targetKeyIndexSql "database is locked") [])
    [Call.query catalogQuery, Call.exec targetsTableSql none] [] targetKeyIndexSql
    "database is locked" (by decide)⟩

/-- C6 fails as stated: on an empty store where nothing fails, with the iteration
over the map starting at its third entry, the reconciler creates
`target_subscriber` before the two tables it references, and returns `(true, nil)`. -/
theorem initialize_order_counterexample :
    (initializeSchema 4 (openTx noFault [])).1 = (true, none) ∧
    createdTables (initializeSchema 4 (openTx noFault [])).2.trace =
      ["target_subscriber", "targets", "subscribers"] ∧
    createdTables (initializeSchema 4 (openTx noFault [])).2.trace ≠
      [targetTableName, subscriberTableName, targetSubscriberTableName] := by
  decide

theorem initialize_follows_map_order_witness :
    (GoMap.range 4 (missingEntries [] : GoMap (tableCreator Schema))).map Prod.fst =
      rangeOrder 4 (missingTables []) ∧
    (rangeOrder 4 (missingTables [])).Perm (missingTables []) ∧
    execSql (newCalls (openTx noFault []) (initializeSchema 4 (openTx noFault [])).2) <+:
      (rangeOrder 4 (missingTables [])).flatMap creatorQueries :=
  initialize_follows_map_order 4 (openTx noFault []) ⟨[], none⟩ [] rfl rfl

theorem query_or_scan_failure_at_null_row :
    (getTableCreators nullRowTx).1 =
      Except.error "converting NULL to string is unsupported" ∧
    (initializeSchema 0 nullRowTx).1 =
      (false, some "converting NULL to string is unsupported") ∧
    (initializeSchema 0 nullRowTx).2.trace = nullRowTx.trace ++ [Call.query catalogQuery] ∧
    (initializeSchema 0 nullRowTx).2.db = nullRowTx.db :=
  query_or_scan_failure 0 nullRowTx "converting NULL to string is unsupported"
    (Or.inr ⟨_, ["targets"], [Except.ok "subscribers"], rfl, rfl⟩)

/-- C10 fails as stated: two runs on an empty store, one in which the first statement
of `targets` fails and one in which its second statement fails, the store
reporting a lock both times, return the same error: the returned error does not
tell which statement failed. -/
theorem initialize_error_counterexample :
    (initializeSchema 0 (openTx (failOn targetsTableSql "database is locked") [])).1 =
      (false, some "database is locked") ∧
    (initializeSchema 0 (openTx (failOn targetKeyIndexSql "database is locked") [])).1 =
      (false, some "database is locked") ∧
    (initializeSchema 0 (openTx (failOn targetsTableSql "database is locked") [])).2.trace.getLast? =
      some (Call.exec targetsTableSql (some "database is locked")) ∧
    (initializeSchema 0 (openTx (failOn targetKeyIndexSql "database is locked") [])).2.trace.getLast? =
      some (Call.exec targetKeyIndexSql (some "database is locked")) ∧
    targetsTableSql ≠ targetKeyIndexSql := by
  decide

theorem initialize_error_unwrapped_witness :
    (initializeSchema 0 (openTx (failOn targetsTableSql "database is locked") [])).1 =
      (false, some "database is locked") ∧
    (initializeSchema 0 (openTx (failOn targetKeyIndexSql "database is locked") [])).1 =
      (initializeSchema 0 (openTx (failOn targetsTableSql "database is locked") [])).1 :=
  initialize_error_unwrapped 0 0 (openTx (failOn targetsTableSql "database is locked") [])
    (openTx (failOn targetKeyIndexSql "database is locked") [])
    [Call.query catalogQuery] [Call.query catalogQuery, Call.exec targetsTableSql none]
    targetsTableSql targetKeyIndexSql "database is locked" (by decide) (by decide)

end Sqlite
